import Mathlib

/-!
terraform-cloudca: VPC and port forwarding rule resources

A shallow embedding of `cloudca/resource_vpc.go` and
`cloudca/resource_port_forwarding_rule.go`.

* Go `error` values are `Option GoError` (`none` is `nil`).
* The remote API (`go-cloudca`) is a deterministic server with a state of type `σ`:
  every call takes the server state and gives back a result and the next state. A call
  answers with a record or with an error, never both.
* Every call that leaves a resource function is appended to a call log, so that
  "is never invoked" is a statement about the log.
* `ccaClient.GetResources` gives an interface value; the source asserts its dynamic type
  with `resources.(cloudca.Resources)`, which panics when the assertion fails. A resource
  function therefore ends in `Outcome.panicked` or `Outcome.returned err`.
* `schema.ResourceData` is a record per resource type holding what `d.Get`, `d.GetOk`,
  `d.Id` and `d.HasChange` read and what `d.Set` and `d.SetId` write. `d.GetOk` reports a
  key as set only when its value is not the zero value of its type.
* `d.Set` of a Go string on a `TypeInt` field is rejected by the schema and leaves the
  field as it was; the source discards the error `Set` returns.
* Go `int` values are unbounded integers here: the code formats them and performs no
  arithmetic on them.
* `fmt.Errorf` calls whose result is discarded, `log.Printf` and `fmt.Println` have no
  effect on the results and are left out.
-/

namespace Cloudca

/-! ## Errors -/

/-- Go error values that reach the resource functions.
`ccaErrorResponse` is `api.CcaErrorResponse` (its `StatusCode` and the rest of its payload),
`other` is an error of any other dynamic type, `errorfCreateVpc` is
`fmt.Errorf("Error creating the new VPC %s: %s", name, err)` and `errorfOfferingNotFound` is
`fmt.Errorf("VPC offering with name %s not found", name)`. -/
inductive GoError where
  | ccaErrorResponse (StatusCode : Int) (payload : String)
  | other (text : String)
  | errorfCreateVpc (name : String) (cause : GoError)
  | errorfOfferingNotFound (name : String)
  deriving DecidableEq, Repr

/-- The test `ccaError, ok := err.(api.CcaErrorResponse); ok && ccaError.StatusCode == 404`. -/
def isNotFound : GoError → Bool
  | .ccaErrorResponse code _ => code == 404
  | _ => false

/-- How a Go function call ends: a run-time panic, or a return with its `error` result. -/
inductive Outcome where
  | panicked
  | returned (err : Option GoError)
  deriving DecidableEq, Repr

/-! ## API records -/

/-- The fields of `cloudca.Vpc` that the provider reads or writes. A field left out of a
composite literal has the zero value `""`. -/
structure Vpc where
  Id : String := ""
  Name : String := ""
  Description : String := ""
  VpcOfferingId : String := ""
  NetworkDomain : String := ""
  deriving DecidableEq, Repr

/-- The fields of `cloudca.VpcOffering` used by the provider. -/
structure VpcOffering where
  Id : String := ""
  Name : String := ""
  deriving DecidableEq, Repr

/-- The fields of `cloudca.PortForwardingRule` used by the provider; all are Go strings. -/
structure PortForwardingRule where
  Id : String := ""
  PublicIp : String := ""
  PublicIpId : String := ""
  PublicPortStart : String := ""
  PublicPortEnd : String := ""
  PrivateIp : String := ""
  PrivateIpId : String := ""
  PrivatePortStart : String := ""
  PrivatePortEnd : String := ""
  InstanceId : String := ""
  Protocol : String := ""
  deriving DecidableEq, Repr

/-! ## The remote API -/

/-- One call leaving a resource function. -/
inductive ApiCall where
  | GetResources (serviceCode environmentName : String)
  | VpcsCreate (vpc : Vpc)
  | VpcsGet (id : String)
  | VpcsUpdate (vpc : Vpc)
  | VpcsDestroy (id : String)
  | VpcOfferingsGet (id : String)
  | VpcOfferingsList
  | PortForwardingRulesCreate (pfr : PortForwardingRule)
  | PortForwardingRulesGet (id : String)
  | PortForwardingRulesDelete (id : String)
  deriving DecidableEq, Repr

/-- The services of `cloudca.Resources` the provider calls, over a server state `σ`. -/
structure Resources (σ : Type) where
  VpcsCreate : Vpc → σ → Except GoError Vpc × σ
  VpcsGet : String → σ → Except GoError Vpc × σ
  VpcsUpdate : Vpc → σ → Except GoError Vpc × σ
  VpcsDestroy : String → σ → Except GoError Bool × σ
  VpcOfferingsGet : String → σ → Except GoError VpcOffering × σ
  VpcOfferingsList : σ → Except GoError (List VpcOffering) × σ
  PortForwardingRulesCreate : PortForwardingRule → σ → Except GoError PortForwardingRule × σ
  PortForwardingRulesGet : String → σ → Except GoError PortForwardingRule × σ
  PortForwardingRulesDelete : String → σ → Except GoError Bool × σ

/-- The client `cca.CcaClient`. `GetResources` gives an interface value and an error; the
interface value is `some r` when its dynamic type is `cloudca.Resources` and `none`
otherwise (a nil interface included), in which case the type assertion
`resources.(cloudca.Resources)` panics. -/
structure CcaClient (σ : Type) where
  GetResources : String → String → σ → (Option (Resources σ) × Option GoError) × σ

/-- The server state together with the log of calls made so far. -/
structure World (σ : Type) where
  srv : σ
  calls : List ApiCall

/-- Perform a call: log it and advance the server. -/
def perform {σ α : Type} (call : ApiCall) (f : σ → α × σ) (w : World σ) : α × World σ :=
  ((f w.srv).1, { srv := (f w.srv).2, calls := w.calls ++ [call] })

/-- What a resource function leaves behind: how it ended, the resource data and the world. -/
structure Result (δ σ : Type) where
  outcome : Outcome
  d : δ
  world : World σ

/-! ## Resource data -/

/-- What `schema.ResourceData` holds for a `cloudca_vpc` resource.
`id` is read by `d.Id()` and written by `d.SetId`. The plain fields are what `d.Get`
returns and `d.Set` overwrites; `network_domain` is the one optional field and is `none`
when it has no known value. `old_name`, `new_name`, `old_description` and
`new_description` are the pairs `d.GetChange` returns: the value in the last-read state and
the planned value; `d.Set` does not touch them. -/
structure VpcData where
  id : String
  service_code : String
  environment_name : String
  name : String
  description : String
  vpc_offering : String
  network_domain : Option String
  old_name : String
  new_name : String
  old_description : String
  new_description : String
  deriving DecidableEq, Repr

/-- What `schema.ResourceData` holds for a `cloudca_port_forwarding_rule` resource. The two
port-range ends are optional and are `none` when they have no known value. -/
structure PfrData where
  id : String
  service_code : String
  environment_name : String
  public_ip_id : String
  private_ip_id : String
  protocol : String
  private_port_start : Int
  private_port_end : Option Int
  public_port_start : Int
  public_port_end : Option Int
  public_ip : String
  private_ip : String
  instance_id : String
  deriving DecidableEq, Repr

/-- The call `d.Get(key).(int)` on an optional integer field: the zero value when unset. -/
def GetInt (v : Option Int) : Int := v.getD 0

/-- The call `d.GetOk(key)` on an optional integer field: the value, and whether the key
has been set to a non-zero value. -/
def GetOkInt (v : Option Int) : Int × Bool :=
  match v with
  | none => (0, false)
  | some x => (x, x != 0)

/-- The call `d.GetOk(key)` on an optional string field: the value, and whether the key has
been set to a non-zero value. -/
def GetOkString (v : Option String) : String × Bool :=
  match v with
  | none => ("", false)
  | some x => (x, x != "")

/-- The call `d.HasChange("name")`: old and new value differ. -/
def HasChangeName (d : VpcData) : Bool := d.old_name != d.new_name

/-- The call `d.HasChange("description")`. -/
def HasChangeDescription (d : VpcData) : Bool := d.old_description != d.new_description

/-! ## Helpers that live outside the two source files -/

/-- Functions the source calls but does not define: `isID` and `setValueOrID` (helpers of
the provider package), `strings.EqualFold` and `strings.ToLower` (Go standard library).
They are parameters of the embedding. -/
structure Helpers where
  isID : String → Bool
  EqualFold : String → String → Bool
  ToLower : String → String
  setValueOrID : VpcData → String → String → String → VpcData

/-! ## strconv.Itoa -/

/-- The character of a decimal digit. -/
def digitChar (n : Nat) : Char := Char.ofNat (48 + n)

/-- Decimal digits of `n`, most significant first; `fuel` bounds the number of digits. -/
def natText : Nat → Nat → List Char
  | 0, _ => []
  | fuel + 1, n =>
    if n < 10 then [digitChar n] else natText fuel (n / 10) ++ [digitChar (n % 10)]

/-- Go `strconv.Itoa`: a minus sign for a negative number, then the decimal digits of the
absolute value. -/
def Itoa (i : Int) : String :=
  if i < 0 then String.mk ('-' :: natText (i.natAbs + 1) i.natAbs)
  else String.mk (natText (i.natAbs + 1) i.natAbs)

/-! ## resource_vpc.go -/

/-- The loop of `retrieveVpcOfferingID` over the listing: the `Id` of the first offering
whose `Name` is `EqualFold` to `name`. -/
def findOffering (h : Helpers) (name : String) : List VpcOffering → Option String
  | [] => none
  | offering :: rest =>
    if h.EqualFold offering.Name name then some offering.Id else findOffering h name rest

/-- Go `retrieveVpcOfferingID(ccaRes, name) (id string, err error)`. -/
def retrieveVpcOfferingID {σ : Type} (h : Helpers) (ccaRes : Resources σ) (name : String)
    (w : World σ) : (String × Option GoError) × World σ :=
  if h.isID name then ((name, none), w)
  else
    let r := perform ApiCall.VpcOfferingsList ccaRes.VpcOfferingsList w
    match r.1 with
    | .error err => (("", some err), r.2)
    | .ok vpcOfferings =>
      match findOffering h name vpcOfferings with
      | some id => ((id, none), r.2)
      | none => (("", some (GoError.errorfOfferingNotFound name)), r.2)

/-- Go `resourceCloudcaVpcRead`. -/
def resourceCloudcaVpcRead {σ : Type} (h : Helpers) (client : CcaClient σ) (d : VpcData)
    (w : World σ) : Result VpcData σ :=
  let res := perform (ApiCall.GetResources d.service_code d.environment_name)
    (client.GetResources d.service_code d.environment_name) w
  match res.1.1 with
  | none => ⟨Outcome.panicked, d, res.2⟩
  | some ccaResources =>
    let r := perform (ApiCall.VpcsGet d.id) (ccaResources.VpcsGet d.id) res.2
    match r.1 with
    | .error err =>
      if isNotFound err then ⟨Outcome.returned none, { d with id := "" }, r.2⟩
      else ⟨Outcome.returned (some err), d, r.2⟩
    | .ok vpc =>
      let o := perform (ApiCall.VpcOfferingsGet vpc.VpcOfferingId)
        (ccaResources.VpcOfferingsGet vpc.VpcOfferingId) r.2
      match o.1 with
      | .error offErr =>
        if isNotFound offErr then ⟨Outcome.returned none, { d with id := "" }, o.2⟩
        else ⟨Outcome.returned (some offErr), d, o.2⟩
      | .ok vpcOffering =>
        let d1 := { d with name := vpc.Name }
        let d2 := { d1 with description := vpc.Description }
        let d3 := h.setValueOrID d2 "vpc_offering" (h.ToLower vpcOffering.Name) vpc.VpcOfferingId
        let d4 := { d3 with network_domain := some vpc.NetworkDomain }
        ⟨Outcome.returned none, d4, o.2⟩

/-- The value `vpcToCreate` that `resourceCloudcaVpcCreate` builds from the resource data
and the resolved offering id: the network domain is filled in only when `GetOk` reports
one. -/
def vpcToCreate (d : VpcData) (vpcOfferingId : String) : Vpc :=
  let vpcToCreate : Vpc :=
    { Name := d.name, Description := d.description, VpcOfferingId := vpcOfferingId }
  if (GetOkString d.network_domain).2 then
    { vpcToCreate with NetworkDomain := (GetOkString d.network_domain).1 }
  else vpcToCreate

/-- Go `resourceCloudcaVpcCreate`. -/
def resourceCloudcaVpcCreate {σ : Type} (h : Helpers) (client : CcaClient σ) (d : VpcData)
    (w : World σ) : Result VpcData σ :=
  let res := perform (ApiCall.GetResources d.service_code d.environment_name)
    (client.GetResources d.service_code d.environment_name) w
  match res.1.1 with
  | none => ⟨Outcome.panicked, d, res.2⟩
  | some ccaResources =>
    let off := retrieveVpcOfferingID h ccaResources d.vpc_offering res.2
    match off.1.2 with
    | some cerr => ⟨Outcome.returned (some cerr), d, off.2⟩
    | none =>
      let req := vpcToCreate d off.1.1
      let r := perform (ApiCall.VpcsCreate req) (ccaResources.VpcsCreate req) off.2
      match r.1 with
      | .error err => ⟨Outcome.returned (some (GoError.errorfCreateVpc req.Name err)), d, r.2⟩
      | .ok newVpc => resourceCloudcaVpcRead h client { d with id := newVpc.Id } r.2

/-- Go `resourceCloudcaVpcUpdate`. -/
def resourceCloudcaVpcUpdate {σ : Type} (client : CcaClient σ) (d : VpcData)
    (w : World σ) : Result VpcData σ :=
  let res := perform (ApiCall.GetResources d.service_code d.environment_name)
    (client.GetResources d.service_code d.environment_name) w
  match res.1.1 with
  | none => ⟨Outcome.panicked, d, res.2⟩
  | some ccaResources =>
    if HasChangeName d || HasChangeDescription d then
      let newName := d.name
      let newDescription := d.description
      let req : Vpc := { Id := d.id, Name := newName, Description := newDescription }
      let r := perform (ApiCall.VpcsUpdate req) (ccaResources.VpcsUpdate req) res.2
      match r.1 with
      | .error err => ⟨Outcome.returned (some err), d, r.2⟩
      | .ok _ => ⟨Outcome.returned none, d, r.2⟩
    else ⟨Outcome.returned none, d, res.2⟩

/-- Go `resourceCloudcaVpcDelete`. -/
def resourceCloudcaVpcDelete {σ : Type} (client : CcaClient σ) (d : VpcData)
    (w : World σ) : Result VpcData σ :=
  let res := perform (ApiCall.GetResources d.service_code d.environment_name)
    (client.GetResources d.service_code d.environment_name) w
  match res.1.1 with
  | none => ⟨Outcome.panicked, d, res.2⟩
  | some ccaResources =>
    let r := perform (ApiCall.VpcsDestroy d.id) (ccaResources.VpcsDestroy d.id) res.2
    match r.1 with
    | .error err =>
      if isNotFound err then ⟨Outcome.returned none, { d with id := "" }, r.2⟩
      else ⟨Outcome.returned (some err), d, r.2⟩
    | .ok _ => ⟨Outcome.returned none, d, r.2⟩

/-! ## resource_port_forwarding_rule.go -/

/-- Go `handleNotFoundError(err, d)`: the returned error and the resource data afterwards. -/
def handleNotFoundError (err : Option GoError) (d : PfrData) : Option GoError × PfrData :=
  match err with
  | some (GoError.ccaErrorResponse StatusCode payload) =>
    if StatusCode == 404 then (none, { d with id := "" })
    else (some (GoError.ccaErrorResponse StatusCode payload), d)
  | e => (e, d)

/-- A value handed to `d.Set` for a `TypeInt` field, by its Go type. -/
inductive GoValue where
  | int (n : Int)
  | string (text : String)
  deriving DecidableEq, Repr

/-- The call `d.Set(key, value)` on a `TypeInt` field whose current value is `cur`.
The schema decodes `value` into an `int` without converting between types: a Go `int` is
stored, a Go `string` is rejected and `Set` returns an error. The source discards what
`Set` returns, so after a rejected value the field holds what it held. -/
def SetInt (cur : Int) (value : GoValue) : Int :=
  match value with
  | .int n => n
  | .string _ => cur

/-- The call `d.Set(key, value)` on an optional `TypeInt` field. -/
def SetOptInt (cur : Option Int) (value : GoValue) : Option Int :=
  match value with
  | .int n => some n
  | .string _ => cur

/-- Go `readPortForwardingRule`. -/
def readPortForwardingRule {σ : Type} (client : CcaClient σ) (d : PfrData)
    (w : World σ) : Result PfrData σ :=
  let res := perform (ApiCall.GetResources d.service_code d.environment_name)
    (client.GetResources d.service_code d.environment_name) w
  match res.1.1 with
  | none => ⟨Outcome.panicked, d, res.2⟩
  | some ccaResources =>
    let r := perform (ApiCall.PortForwardingRulesGet d.id)
      (ccaResources.PortForwardingRulesGet d.id) res.2
    match r.1 with
    | .error err => ⟨Outcome.returned (handleNotFoundError (some err) d).1,
        (handleNotFoundError (some err) d).2, r.2⟩
    | .ok pfr =>
      ⟨Outcome.returned none,
        { d with
          public_ip_id := pfr.PublicIpId
          private_ip_id := pfr.PrivateIpId
          instance_id := pfr.InstanceId
          protocol := pfr.Protocol
          public_port_start := SetInt d.public_port_start (GoValue.string pfr.PublicPortStart)
          public_port_end := SetOptInt d.public_port_end (GoValue.string pfr.PublicPortEnd)
          private_port_start :=
            SetInt d.private_port_start (GoValue.string pfr.PrivatePortStart)
          private_port_end := SetOptInt d.private_port_end (GoValue.string pfr.PrivatePortEnd)
          private_ip := pfr.PrivateIp
          public_ip := pfr.PublicIp },
        r.2⟩

/-- The request `createPortForwardingRule` builds from the resource data. -/
def pfrRequest (d : PfrData) : PortForwardingRule :=
  let pfr : PortForwardingRule :=
    { PublicIpId := d.public_ip_id
      Protocol := d.protocol
      PublicPortStart := Itoa d.public_port_start
      PrivateIpId := d.private_ip_id
      PrivatePortStart := Itoa d.private_port_start }
  let pfr : PortForwardingRule :=
    if (GetOkInt d.public_port_end).2 then
      { pfr with PublicPortEnd := Itoa (GetInt d.public_port_end) }
    else pfr
  if (GetOkInt d.private_port_end).2 then
    { pfr with PrivatePortEnd := Itoa (GetInt d.private_port_end) }
  else pfr

/-- Go `createPortForwardingRule`. -/
def createPortForwardingRule {σ : Type} (client : CcaClient σ) (d : PfrData)
    (w : World σ) : Result PfrData σ :=
  let res := perform (ApiCall.GetResources d.service_code d.environment_name)
    (client.GetResources d.service_code d.environment_name) w
  match res.1.1 with
  | none => ⟨Outcome.panicked, d, res.2⟩
  | some ccaResources =>
    match res.1.2 with
    | some err => ⟨Outcome.returned (some err), d, res.2⟩
    | none =>
      let pfr := pfrRequest d
      let r := perform (ApiCall.PortForwardingRulesCreate pfr)
        (ccaResources.PortForwardingRulesCreate pfr) res.2
      match r.1 with
      | .error err => ⟨Outcome.returned (some err), d, r.2⟩
      | .ok newPfr => readPortForwardingRule client { d with id := newPfr.Id } r.2

/-- Go `deletePortForwardingRule`. -/
def deletePortForwardingRule {σ : Type} (client : CcaClient σ) (d : PfrData)
    (w : World σ) : Result PfrData σ :=
  let res := perform (ApiCall.GetResources d.service_code d.environment_name)
    (client.GetResources d.service_code d.environment_name) w
  match res.1.1 with
  | none => ⟨Outcome.panicked, d, res.2⟩
  | some ccaResources =>
    let r := perform (ApiCall.PortForwardingRulesDelete d.id)
      (ccaResources.PortForwardingRulesDelete d.id) res.2
    match r.1 with
    | .error err => ⟨Outcome.returned (handleNotFoundError (some err) d).1,
        (handleNotFoundError (some err) d).2, r.2⟩
    | .ok _ => ⟨Outcome.returned none, d, r.2⟩

/-! ## Concrete instances used to evaluate the embedding -/

/-- ASCII lower-casing of a text, character by character. -/
def asciiLower (s : String) : String := String.mk (s.data.map Char.toLower)

/-- A classifier of canonical ids: 36 characters with dashes at the UUID positions. -/
def uuidShape (s : String) : Bool :=
  s.data.length == 36 && s.data.get? 8 == some '-' && s.data.get? 13 == some '-' &&
    s.data.get? 18 == some '-' && s.data.get? 23 == some '-'

/-- One step of reading a decimal numeral: append the digit `c` to the number read so far;
`none` when `c` is not a decimal digit. -/
def stepDigit (acc : Option Nat) (c : Char) : Option Nat :=
  acc.bind (fun a => if c.isDigit then some (a * 10 + (c.toNat - 48)) else none)

/-- Digits of a text read as a natural number; `none` for an empty text or a character
that is not a decimal digit. -/
def parseNat (cs : List Char) : Option Nat :=
  if cs = [] then none else cs.foldl stepDigit (some 0)

/-- A text read as a decimal number: an optional minus sign, then digits. -/
def parseDecimal (s : String) : Option Int :=
  if s.data.head? = some '-' then (parseNat s.data.tail).map (fun n : Nat => -(n : Int))
  else (parseNat s.data).map (fun n : Nat => (n : Int))

/-- A text made of decimal digits only (at least one), without a leading zero unless it
is "0" itself, and without a sign character. -/
def plainDecimal (s : String) : Bool :=
  !s.data.isEmpty && s.data.all Char.isDigit
    && (s.data == ['0'] || s.data.head? != some '0')
    && !(s.data.contains '-' || s.data.contains '+')

/-- One choice of the helper functions: ids are UUID-shaped, names are compared after
ASCII lower-casing (which is what `strings.EqualFold` and `strings.ToLower` do on ASCII
texts), and `setValueOrID` stores the id when the field holds an id and the value
otherwise. -/
def sampleHelpers : Helpers where
  isID := uuidShape
  EqualFold := fun a b => asciiLower a == asciiLower b
  ToLower := asciiLower
  setValueOrID := fun d _ value id =>
    if uuidShape d.vpc_offering then { d with vpc_offering := id }
    else { d with vpc_offering := value }

/-- A server without state whose offering listing is `offs` and whose other services
answer every call with status `code`. -/
def failingResources (code : Int) (offs : List VpcOffering) : Resources Unit where
  VpcsCreate := fun _ s => (.error (GoError.ccaErrorResponse code "vpc"), s)
  VpcsGet := fun _ s => (.error (GoError.ccaErrorResponse code "vpc"), s)
  VpcsUpdate := fun _ s => (.error (GoError.ccaErrorResponse code "vpc"), s)
  VpcsDestroy := fun _ s => (.error (GoError.ccaErrorResponse code "vpc"), s)
  VpcOfferingsGet := fun _ s => (.error (GoError.ccaErrorResponse code "offering"), s)
  VpcOfferingsList := fun s => (.ok offs, s)
  PortForwardingRulesCreate := fun _ s => (.error (GoError.ccaErrorResponse code "pfr"), s)
  PortForwardingRulesGet := fun _ s => (.error (GoError.ccaErrorResponse code "pfr"), s)
  PortForwardingRulesDelete := fun _ s => (.error (GoError.ccaErrorResponse code "pfr"), s)

/-- The client handing out `failingResources code offs` for every scope. -/
def failingClient (code : Int) (offs : List VpcOffering) : CcaClient Unit where
  GetResources := fun _ _ s => ((some (failingResources code offs), none), s)

/-- Two offerings, the second named "Default". -/
def sampleOfferings : List VpcOffering :=
  [{ Id := "off-0", Name := "Basic" }, { Id := "off-1", Name := "Default" }]

/-- The empty world: a stateless server and no call made yet. -/
def emptyWorld : World Unit := { srv := (), calls := [] }

/-- A VPC whose name was changed from "vpc1" to "vpc2" and whose description is unchanged. -/
def renamedVpc : VpcData where
  id := "vpc-9"
  service_code := "svc1"
  environment_name := "dev"
  name := "vpc2"
  description := "d"
  vpc_offering := "default"
  network_domain := none
  old_name := "vpc1"
  new_name := "vpc2"
  old_description := "d"
  new_description := "d"

/-- The state of a small in-memory server: the VPCs and port forwarding rules it holds. -/
structure Store where
  vpcs : List Vpc
  rules : List PortForwardingRule
  deriving DecidableEq, Repr

/-- An in-memory server. `Create` assigns the next id and fills in what the server
computes (the network domain of a VPC; the addresses, the instance and an omitted
port-range end of a rule); `Get`, `Update` and `Destroy`/`Delete` answer 404 for an id the
server does not hold. -/
def memoryResources (offs : List VpcOffering) : Resources Store where
  VpcsCreate := fun v s =>
    let made : Vpc :=
      { v with
        Id := "vpc-" ++ Itoa s.vpcs.length
        NetworkDomain := if v.NetworkDomain = "" then "auto.local" else v.NetworkDomain }
    (.ok made, { s with vpcs := s.vpcs ++ [made] })
  VpcsGet := fun id s =>
    match s.vpcs.find? (fun v => v.Id == id) with
    | some v => (.ok v, s)
    | none => (.error (GoError.ccaErrorResponse 404 "vpc"), s)
  VpcsUpdate := fun req s =>
    match s.vpcs.find? (fun v => v.Id == req.Id) with
    | some v =>
      let changed : Vpc := { v with Name := req.Name, Description := req.Description }
      (.ok changed,
        { s with vpcs := s.vpcs.map (fun x => if x.Id == req.Id then changed else x) })
    | none => (.error (GoError.ccaErrorResponse 404 "vpc"), s)
  VpcsDestroy := fun id s =>
    if s.vpcs.any (fun v => v.Id == id) then
      (.ok true, { s with vpcs := s.vpcs.filter (fun v => v.Id != id) })
    else (.error (GoError.ccaErrorResponse 404 "vpc"), s)
  VpcOfferingsGet := fun id s =>
    match offs.find? (fun o => o.Id == id) with
    | some o => (.ok o, s)
    | none => (.error (GoError.ccaErrorResponse 404 "offering"), s)
  VpcOfferingsList := fun s => (.ok offs, s)
  PortForwardingRulesCreate := fun req s =>
    let made : PortForwardingRule :=
      { req with
        Id := "pfr-" ++ Itoa s.rules.length
        PublicIp := "203.0.113.7"
        PrivateIp := "10.0.0.5"
        InstanceId := "i-1"
        PublicPortEnd := if req.PublicPortEnd = "" then req.PublicPortStart else req.PublicPortEnd
        PrivatePortEnd :=
          if req.PrivatePortEnd = "" then req.PrivatePortStart else req.PrivatePortEnd }
    (.ok made, { s with rules := s.rules ++ [made] })
  PortForwardingRulesGet := fun id s =>
    match s.rules.find? (fun r => r.Id == id) with
    | some r => (.ok r, s)
    | none => (.error (GoError.ccaErrorResponse 404 "pfr"), s)
  PortForwardingRulesDelete := fun id s =>
    if s.rules.any (fun r => r.Id == id) then
      (.ok true, { s with rules := s.rules.filter (fun r => r.Id != id) })
    else (.error (GoError.ccaErrorResponse 404 "pfr"), s)

/-- The client of the in-memory server. -/
def memoryClient (offs : List VpcOffering) : CcaClient Store where
  GetResources := fun _ _ s => ((some (memoryResources offs), none), s)

/-- A world over the in-memory server holding `s`, with no call made yet. -/
def memoryWorld (s : Store) : World Store := { srv := s, calls := [] }

/-- The VPC record the in-memory server holds for `renamedVpc` before the update. -/
def storedVpc : Vpc :=
  { Id := "vpc-9", Name := "vpc1", Description := "d", VpcOfferingId := "off-1",
    NetworkDomain := "auto.local" }

/-- A VPC with no pending change. -/
def unchangedVpc : VpcData := { renamedVpc with name := "vpc1", new_name := "vpc1" }

/-- A new VPC, not yet created: the stored id is empty. -/
def newVpc : VpcData := { unchangedVpc with id := "", vpc_offering := "Default" }

/-- A new port forwarding rule, not yet created, with no port-range end supplied. -/
def newRule : PfrData where
  id := ""
  service_code := "svc1"
  environment_name := "dev"
  public_ip_id := "ip-1"
  private_ip_id := "nic-1"
  protocol := "TCP"
  private_port_start := 8080
  private_port_end := none
  public_port_start := 80
  public_port_end := none
  public_ip := ""
  private_ip := ""
  instance_id := ""

/-- The rule `newRule` with the private port-range end supplied as 0. -/
def zeroEndRule : PfrData := { newRule with private_port_end := some 0 }

/-- The rule `newRule` with the public port-range end supplied as 0. -/
def zeroPublicEndRule : PfrData := { newRule with public_port_end := some 0 }

/-- The rule `newRule` with the public port-range end supplied as 90. -/
def rangeRule : PfrData := { newRule with public_port_end := some 90 }

/-- The rule `newRule` with a negative public start port. -/
def negativeRule : PfrData := { newRule with public_port_start := -1 }

/-- What `createPortForwardingRule` puts in an optional port-range end of the request,
as a function of the field of the resource data. -/
def endText (v : Option Int) : String :=
  match v with
  | none => ""
  | some x => if x = 0 then "" else Itoa x

/-- A rule the server no longer holds, with computed fields left from an earlier read. -/
def staleRule : PfrData :=
  { newRule with id := "pfr-7", public_ip := "198.51.100.1", public_port_end := some 81 }

/-- A new VPC asking for an offering name the server does not list. -/
def unknownOfferingVpc : VpcData := { newVpc with vpc_offering := "gold" }

/-- The record the in-memory server holds for the rule "pfr-0". -/
def storedRule : PortForwardingRule :=
  { Id := "pfr-0", PublicIp := "203.0.113.7", PublicIpId := "ip-1", PublicPortStart := "80",
    PublicPortEnd := "80", PrivateIp := "10.0.0.5", PrivateIpId := "nic-1",
    PrivatePortStart := "8080", PrivatePortEnd := "8080", InstanceId := "i-1",
    Protocol := "TCP" }

/-- The rule "pfr-0" as stored locally before a read, computed fields not yet known. -/
def knownRule : PfrData := { newRule with id := "pfr-0" }

/-! ## Theorems -/

theorem isNotFound_iff (e : GoError) :
    isNotFound e = true ↔ ∃ payload, e = GoError.ccaErrorResponse 404 payload := by
  cases e <;> simp [isNotFound]

theorem findOffering_none (h : Helpers) (name : String) (offs : List VpcOffering) :
    findOffering h name offs = none ↔ ∀ o ∈ offs, h.EqualFold o.Name name = false := by
  induction offs with
  | nil => simp [findOffering]
  | cons o rest ih =>
    by_cases ho : h.EqualFold o.Name name = true
    · simp [findOffering, ho]
    · simp [findOffering, ho, ih]

theorem findOffering_first (h : Helpers) (name : String) (pre post : List VpcOffering)
    (off : VpcOffering) (hpre : ∀ o ∈ pre, h.EqualFold o.Name name = false)
    (hoff : h.EqualFold off.Name name = true) :
    findOffering h name (pre ++ off :: post) = some off.Id := by
  induction pre with
  | nil => simp [findOffering, hoff]
  | cons o rest ih =>
    have ho : h.EqualFold o.Name name = false := hpre o (List.mem_cons_self _ _)
    have hrest : ∀ x ∈ rest, h.EqualFold x.Name name = false :=
      fun x hx => hpre x (List.mem_cons_of_mem _ hx)
    simp [findOffering, ho, ih hrest]

/-- C2: `handleNotFoundError(err, d)` returns nil and sets the stored id of `d` to the
empty string when `err` is a `CcaErrorResponse` with status 404; for every other `err` it
returns exactly `err` and leaves the resource data, the stored id included, as it was.
For an error `e` the returned error is nil if and only if `e` is such a 404 response, and
the resource data changes only in that case. -/
theorem handleNotFoundError_spec (err : Option GoError) (d : PfrData) :
    ((∃ payload, err = some (GoError.ccaErrorResponse 404 payload)) →
        handleNotFoundError err d = (none, { d with id := "" }))
      ∧ ((¬ ∃ payload, err = some (GoError.ccaErrorResponse 404 payload)) →
        handleNotFoundError err d = (err, d))
      ∧ (∀ e, err = some e →
        ((handleNotFoundError err d).1 = none
          ↔ ∃ payload, e = GoError.ccaErrorResponse 404 payload))
      ∧ ((handleNotFoundError err d).2 ≠ d →
        ∃ payload, err = some (GoError.ccaErrorResponse 404 payload)) := by
  refine ⟨?_, ?_, ?_, ?_⟩
  · rintro ⟨payload, rfl⟩
    simp [handleNotFoundError]
  · intro hne
    cases err with
    | none => simp [handleNotFoundError]
    | some e =>
      cases e with
      | ccaErrorResponse code payload =>
        have hc : code ≠ 404 := by
          intro hc
          exact hne ⟨payload, by rw [hc]⟩
        simp [handleNotFoundError, hc]
      | other text => simp [handleNotFoundError]
      | errorfCreateVpc name cause => simp [handleNotFoundError]
      | errorfOfferingNotFound name => simp [handleNotFoundError]
  · rintro e rfl
    cases e with
    | ccaErrorResponse code payload =>
      by_cases hc : code = 404 <;> simp [handleNotFoundError, hc]
    | other text => simp [handleNotFoundError]
    | errorfCreateVpc name cause => simp [handleNotFoundError]
    | errorfOfferingNotFound name => simp [handleNotFoundError]
  · intro hchg
    cases err with
    | none => simp [handleNotFoundError] at hchg
    | some e =>
      cases e with
      | ccaErrorResponse code payload =>
        by_cases hc : code = 404
        · exact ⟨payload, by rw [hc]⟩
        · simp [handleNotFoundError, hc] at hchg
      | other text => simp [handleNotFoundError] at hchg
      | errorfCreateVpc name cause => simp [handleNotFoundError] at hchg
      | errorfOfferingNotFound name => simp [handleNotFoundError] at hchg

theorem handleNotFoundError_spec_witness :
    handleNotFoundError (some (GoError.ccaErrorResponse 404 "pfr")) staleRule
        = (none, { staleRule with id := "" })
      ∧ handleNotFoundError (some (GoError.ccaErrorResponse 500 "pfr")) staleRule
        = (some (GoError.ccaErrorResponse 500 "pfr"), staleRule) :=
  ⟨(handleNotFoundError_spec (some (GoError.ccaErrorResponse 404 "pfr")) staleRule).1
      ⟨"pfr", rfl⟩,
   (handleNotFoundError_spec (some (GoError.ccaErrorResponse 500 "pfr")) staleRule).2.1
      (by rintro ⟨payload, hp⟩; cases hp)⟩

/-- C3: for a token that `isID` accepts, `retrieveVpcOfferingID` returns the token with a
nil error, whatever the listing service would answer, and the world is untouched: no call
is logged and the server state is the same. -/
theorem retrieveVpcOfferingID_id {σ : Type} (h : Helpers) (ccaRes : Resources σ)
    (token : String) (w : World σ) (hid : h.isID token = true) :
    retrieveVpcOfferingID h ccaRes token w = ((token, none), w) := by
  simp [retrieveVpcOfferingID, hid]

theorem retrieveVpcOfferingID_id_witness :
    retrieveVpcOfferingID sampleHelpers (failingResources 500 [{ Id := "other", Name :=
      "0f3c2a10-aaaa-bbbb-cccc-0123456789ab" }]) "0f3c2a10-aaaa-bbbb-cccc-0123456789ab"
      emptyWorld = (("0f3c2a10-aaaa-bbbb-cccc-0123456789ab", none), emptyWorld) :=
  retrieveVpcOfferingID_id sampleHelpers _ _ emptyWorld (by decide)

/-- For a token that `isID` rejects, `retrieveVpcOfferingID` calls the listing once:
the world afterwards is the world after that one call. -/
theorem retrieveVpcOfferingID_world {σ : Type} (h : Helpers) (ccaRes : Resources σ)
    (token : String) (w : World σ) (hnot : h.isID token = false) :
    (retrieveVpcOfferingID h ccaRes token w).2
      = { srv := (ccaRes.VpcOfferingsList w.srv).2,
          calls := w.calls ++ [ApiCall.VpcOfferingsList] } := by
  simp only [retrieveVpcOfferingID, hnot, perform]
  cases hl : (ccaRes.VpcOfferingsList w.srv).1 with
  | error err => simp
  | ok offs => cases hf : findOffering h token offs <;> simp [hf]

/-- C4: for a token that `isID` rejects, `retrieveVpcOfferingID` calls the listing once.
If the listing succeeds, the result is the `Id` of the first offering in list order whose
`Name` is `EqualFold` to the token, with a nil error (in particular the `Id` of the single
matching offering when there is exactly one); if no offering matches, the result is the
empty id with the not-found error; if the listing fails, the result is the empty id with
the listing error. -/
theorem retrieveVpcOfferingID_name {σ : Type} (h : Helpers) (ccaRes : Resources σ)
    (token : String) (w : World σ) (hnot : h.isID token = false) :
    (retrieveVpcOfferingID h ccaRes token w).2
        = { srv := (ccaRes.VpcOfferingsList w.srv).2,
            calls := w.calls ++ [ApiCall.VpcOfferingsList] }
      ∧ (∀ pre off post, (ccaRes.VpcOfferingsList w.srv).1 = .ok (pre ++ off :: post) →
          (∀ o ∈ pre, h.EqualFold o.Name token = false) →
          h.EqualFold off.Name token = true →
          (retrieveVpcOfferingID h ccaRes token w).1 = (off.Id, none))
      ∧ (∀ offs off, (ccaRes.VpcOfferingsList w.srv).1 = .ok offs → off ∈ offs →
          h.EqualFold off.Name token = true →
          (∀ o ∈ offs, h.EqualFold o.Name token = true → o = off) →
          (retrieveVpcOfferingID h ccaRes token w).1 = (off.Id, none))
      ∧ (∀ offs, (ccaRes.VpcOfferingsList w.srv).1 = .ok offs →
          (∀ o ∈ offs, h.EqualFold o.Name token = false) →
          (retrieveVpcOfferingID h ccaRes token w).1
            = ("", some (GoError.errorfOfferingNotFound token)))
      ∧ (∀ err, (ccaRes.VpcOfferingsList w.srv).1 = .error err →
          (retrieveVpcOfferingID h ccaRes token w).1 = ("", some err)) := by
  have first : ∀ pre off post, (ccaRes.VpcOfferingsList w.srv).1 = .ok (pre ++ off :: post) →
      (∀ o ∈ pre, h.EqualFold o.Name token = false) →
      h.EqualFold off.Name token = true →
      (retrieveVpcOfferingID h ccaRes token w).1 = (off.Id, none) := by
    intro pre off post hl hpre hoff
    simp [retrieveVpcOfferingID, hnot, perform, hl, findOffering_first h token pre post off hpre hoff]
  refine ⟨retrieveVpcOfferingID_world h ccaRes token w hnot, first, ?_, ?_, ?_⟩
  · intro offs off hl hmem hoff huniq
    obtain ⟨pre, post, hsplit, hpre⟩ :
        ∃ pre post, offs = pre ++ off :: post ∧
          ∀ o ∈ pre, h.EqualFold o.Name token = false := by
      clear hl
      induction offs with
      | nil => simp at hmem
      | cons x rest ih =>
        by_cases hx : h.EqualFold x.Name token = true
        · have hxo : x = off := huniq x (List.mem_cons_self _ _) hx
          exact ⟨[], rest, by simp [hxo], by simp⟩
        · have hmem2 : off ∈ rest := by
            rcases List.mem_cons.mp hmem with heq | hin
            · exact absurd (heq ▸ hoff) hx
            · exact hin
          obtain ⟨pre, post, hs, hp⟩ :=
            ih hmem2 (fun o ho => huniq o (List.mem_cons_of_mem _ ho))
          refine ⟨x :: pre, post, by simp [hs], ?_⟩
          intro o ho
          rcases List.mem_cons.mp ho with heq | hin
          · subst heq; simpa using hx
          · exact hp o hin
    exact first pre off post (hsplit ▸ hl) hpre hoff
  · intro offs hl hnone
    simp [retrieveVpcOfferingID, hnot, perform, hl, (findOffering_none h token offs).mpr hnone]
  · intro err hl
    simp [retrieveVpcOfferingID, hnot, perform, hl]

theorem retrieveVpcOfferingID_name_witness :
    (retrieveVpcOfferingID sampleHelpers (failingResources 500 sampleOfferings) "DEFAULT"
        emptyWorld).1 = ("off-1", none)
      ∧ (retrieveVpcOfferingID sampleHelpers (failingResources 500 sampleOfferings) "DEFAULT"
          emptyWorld).2.calls = [ApiCall.VpcOfferingsList]
      ∧ (retrieveVpcOfferingID sampleHelpers (failingResources 500 sampleOfferings) "gold"
          emptyWorld).1 = ("", some (GoError.errorfOfferingNotFound "gold")) :=
  ⟨(retrieveVpcOfferingID_name sampleHelpers (failingResources 500 sampleOfferings) "DEFAULT"
      emptyWorld (by decide)).2.1 [{ Id := "off-0", Name := "Basic" }]
      { Id := "off-1", Name := "Default" } [] rfl (by decide) (by decide),
   congrArg World.calls (retrieveVpcOfferingID_name sampleHelpers
      (failingResources 500 sampleOfferings) "DEFAULT" emptyWorld (by decide)).1,
   (retrieveVpcOfferingID_name sampleHelpers (failingResources 500 sampleOfferings) "gold"
      emptyWorld (by decide)).2.2.2.1 sampleOfferings rfl (by decide)⟩

/-! ### 404 on the call keyed by the stored id -/

/-- Read and delete of a VPC and read and delete of a port forwarding rule return nil and
clear the stored id when the call keyed by the stored id fails with status 404. -/
theorem notFound_clears_id {σ : Type} (h : Helpers) (client : CcaClient σ) (r : Resources σ)
    (w : World σ) (payload : String) :
    (∀ d : VpcData,
        (client.GetResources d.service_code d.environment_name w.srv).1.1 = some r →
        (r.VpcsGet d.id (client.GetResources d.service_code d.environment_name w.srv).2).1
          = .error (GoError.ccaErrorResponse 404 payload) →
        (resourceCloudcaVpcRead h client d w).outcome = Outcome.returned none
          ∧ (resourceCloudcaVpcRead h client d w).d = { d with id := "" })
      ∧ (∀ d : VpcData,
        (client.GetResources d.service_code d.environment_name w.srv).1.1 = some r →
        (r.VpcsDestroy d.id (client.GetResources d.service_code d.environment_name w.srv).2).1
          = .error (GoError.ccaErrorResponse 404 payload) →
        (resourceCloudcaVpcDelete client d w).outcome = Outcome.returned none
          ∧ (resourceCloudcaVpcDelete client d w).d = { d with id := "" })
      ∧ (∀ d : PfrData,
        (client.GetResources d.service_code d.environment_name w.srv).1.1 = some r →
        (r.PortForwardingRulesGet d.id
            (client.GetResources d.service_code d.environment_name w.srv).2).1
          = .error (GoError.ccaErrorResponse 404 payload) →
        (readPortForwardingRule client d w).outcome = Outcome.returned none
          ∧ (readPortForwardingRule client d w).d = { d with id := "" })
      ∧ (∀ d : PfrData,
        (client.GetResources d.service_code d.environment_name w.srv).1.1 = some r →
        (r.PortForwardingRulesDelete d.id
            (client.GetResources d.service_code d.environment_name w.srv).2).1
          = .error (GoError.ccaErrorResponse 404 payload) →
        (deletePortForwardingRule client d w).outcome = Outcome.returned none
          ∧ (deletePortForwardingRule client d w).d = { d with id := "" }) := by
  refine ⟨?_, ?_, ?_, ?_⟩
  · intro d hres hget
    simp [resourceCloudcaVpcRead, perform, hres, hget, isNotFound]
  · intro d hres hget
    simp [resourceCloudcaVpcDelete, perform, hres, hget, isNotFound]
  · intro d hres hget
    simp [readPortForwardingRule, perform, hres, hget, handleNotFoundError]
  · intro d hres hget
    simp [deletePortForwardingRule, perform, hres, hget, handleNotFoundError]

/-- When `Vpcs.Update` fails, `resourceCloudcaVpcUpdate` returns that error, whatever its
status, and leaves the resource data as it was. -/
theorem resourceCloudcaVpcUpdate_error {σ : Type} (client : CcaClient σ) (r : Resources σ)
    (d : VpcData) (w : World σ) (err : GoError)
    (hres : (client.GetResources d.service_code d.environment_name w.srv).1.1 = some r)
    (hch : HasChangeName d = true ∨ HasChangeDescription d = true)
    (hupd : (r.VpcsUpdate { Id := d.id, Name := d.name, Description := d.description }
        (client.GetResources d.service_code d.environment_name w.srv).2).1 = .error err) :
    (resourceCloudcaVpcUpdate client d w).outcome = Outcome.returned (some err)
      ∧ (resourceCloudcaVpcUpdate client d w).d = d := by
  rcases hch with hc | hc <;>
    simp [resourceCloudcaVpcUpdate, perform, hres, hc, hupd]

/-- C1: the update of a VPC whose `Vpcs.Update` call fails with status 404. The VPC
"vpc-9" was renamed and the server no longer holds it: the update returns the 404 error
and the stored id is still "vpc-9". -/
theorem resourceCloudcaVpcUpdate_notFound :
    (resourceCloudcaVpcUpdate (memoryClient sampleOfferings) renamedVpc
        (memoryWorld { vpcs := [], rules := [] })).outcome
        = Outcome.returned (some (GoError.ccaErrorResponse 404 "vpc"))
      ∧ (resourceCloudcaVpcUpdate (memoryClient sampleOfferings) renamedVpc
        (memoryWorld { vpcs := [], rules := [] })).d.id = "vpc-9"
      ∧ (resourceCloudcaVpcUpdate (memoryClient sampleOfferings) renamedVpc
        (memoryWorld { vpcs := [], rules := [] })).world.calls
        = [ApiCall.GetResources "svc1" "dev",
           ApiCall.VpcsUpdate { Id := "vpc-9", Name := "vpc2", Description := "d" }] := by
  refine ⟨rfl, rfl, rfl⟩

/-! ### Update of a VPC -/

/-- C5: when neither `name` nor `description` has a change, `resourceCloudcaVpcUpdate`
returns nil, leaves the stored id and every field as they were, and calls no service of
the API: the call log grows by the scope lookup `GetResources` only, so `Vpcs.Update` is
not invoked. -/
theorem resourceCloudcaVpcUpdate_noop {σ : Type} (client : CcaClient σ) (r : Resources σ)
    (d : VpcData) (w : World σ)
    (hres : (client.GetResources d.service_code d.environment_name w.srv).1.1 = some r)
    (hname : HasChangeName d = false) (hdesc : HasChangeDescription d = false) :
    resourceCloudcaVpcUpdate client d w
      = { outcome := Outcome.returned none
          d := d
          world :=
            { srv := (client.GetResources d.service_code d.environment_name w.srv).2
              calls := w.calls ++ [ApiCall.GetResources d.service_code d.environment_name] } } := by
  simp [resourceCloudcaVpcUpdate, perform, hres, hname, hdesc]

theorem resourceCloudcaVpcUpdate_noop_witness :
    resourceCloudcaVpcUpdate (memoryClient sampleOfferings) unchangedVpc
        (memoryWorld { vpcs := [storedVpc], rules := [] })
      = { outcome := Outcome.returned none
          d := unchangedVpc
          world :=
            { srv := { vpcs := [storedVpc], rules := [] }
              calls := [ApiCall.GetResources "svc1" "dev"] } } :=
  resourceCloudcaVpcUpdate_noop (memoryClient sampleOfferings) (memoryResources sampleOfferings)
    unchangedVpc (memoryWorld { vpcs := [storedVpc], rules := [] }) rfl (by decide) (by decide)

/-- C6, as the code has it: when `name` or `description` has a change, the one request
`resourceCloudcaVpcUpdate` submits to `Vpcs.Update` carries the stored id, the current
name and the current description, whichever of the two changed, and nothing else: the VPC
offering id and the network domain are empty. -/
theorem resourceCloudcaVpcUpdate_request {σ : Type} (client : CcaClient σ) (r : Resources σ)
    (d : VpcData) (w : World σ)
    (hres : (client.GetResources d.service_code d.environment_name w.srv).1.1 = some r)
    (hch : HasChangeName d = true ∨ HasChangeDescription d = true) :
    (resourceCloudcaVpcUpdate client d w).world.calls
      = w.calls ++ [ApiCall.GetResources d.service_code d.environment_name,
          ApiCall.VpcsUpdate
            { Id := d.id, Name := d.name, Description := d.description,
              VpcOfferingId := "", NetworkDomain := "" }] := by
  rcases hch with hc | hc <;>
    · simp only [resourceCloudcaVpcUpdate, perform, hres, hc, Bool.true_or, Bool.or_true,
        if_true]
      cases (r.VpcsUpdate { Id := d.id, Name := d.name, Description := d.description }
        (client.GetResources d.service_code d.environment_name w.srv).2).1 <;> simp

theorem resourceCloudcaVpcUpdate_request_witness :
    (resourceCloudcaVpcUpdate (memoryClient sampleOfferings) renamedVpc
        (memoryWorld { vpcs := [storedVpc], rules := [] })).world.calls
      = [ApiCall.GetResources "svc1" "dev",
          ApiCall.VpcsUpdate
            { Id := "vpc-9", Name := "vpc2", Description := "d", VpcOfferingId := "",
              NetworkDomain := "" }] :=
  resourceCloudcaVpcUpdate_request (memoryClient sampleOfferings)
    (memoryResources sampleOfferings) renamedVpc
    (memoryWorld { vpcs := [storedVpc], rules := [] }) rfl (Or.inl (by decide))

/-- C6 as stated fails: the description of `renamedVpc` has no change (only the name
has), and the request submitted to `Vpcs.Update` still carries the description "d". -/
theorem resourceCloudcaVpcUpdate_carries_unchanged :
    HasChangeName renamedVpc = true ∧ HasChangeDescription renamedVpc = false
      ∧ ∃ req, (resourceCloudcaVpcUpdate (memoryClient sampleOfferings) renamedVpc
            (memoryWorld { vpcs := [storedVpc], rules := [] })).world.calls
          = [ApiCall.GetResources "svc1" "dev", ApiCall.VpcsUpdate req]
        ∧ req.Description = "d" ∧ req.Description ≠ "" :=
  ⟨by decide, by decide,
    { Id := "vpc-9", Name := "vpc2", Description := "d" }, rfl, rfl, by decide⟩

/-! ### Decimal text -/

theorem digitChar_isDigit : ∀ d, d < 10 → (digitChar d).isDigit = true := by decide

theorem digitChar_toNat : ∀ d, d < 10 → (digitChar d).toNat - 48 = d := by decide

theorem digitChar_ne_zero : ∀ d, d < 10 → 0 < d → digitChar d ≠ '0' := by decide

theorem isDigit_ne_minus (c : Char) (h : c.isDigit = true) : c ≠ '-' := by
  rintro rfl; revert h; decide

theorem isDigit_ne_plus (c : Char) (h : c.isDigit = true) : c ≠ '+' := by
  rintro rfl; revert h; decide

theorem natText_ne_nil : ∀ fuel n, n < fuel → natText fuel n ≠ [] := by
  intro fuel
  induction fuel with
  | zero => intro n h; omega
  | succ k ih =>
    intro n h
    unfold natText
    split <;> simp

theorem natText_digits :
    ∀ fuel n, n < fuel → ∀ c ∈ natText fuel n, c.isDigit = true := by
  intro fuel
  induction fuel with
  | zero => intro n h; omega
  | succ k ih =>
    intro n h c hc
    unfold natText at hc
    split at hc
    · rename_i hlt
      simp at hc; subst hc; exact digitChar_isDigit n hlt
    · rename_i hge
      rcases List.mem_append.mp hc with h1 | h1
      · exact ih (n / 10) (by omega) c h1
      · simp at h1; subst h1; exact digitChar_isDigit _ (Nat.mod_lt _ (by decide))

theorem natText_fold :
    ∀ fuel n, n < fuel → (natText fuel n).foldl stepDigit (some 0) = some n := by
  intro fuel
  induction fuel with
  | zero => intro n h; omega
  | succ k ih =>
    intro n h
    unfold natText
    split
    · rename_i hlt
      simp [stepDigit, digitChar_isDigit n hlt, digitChar_toNat n hlt]
    · rename_i hge
      rw [List.foldl_append, ih (n / 10) (by omega)]
      have hm : n % 10 < 10 := Nat.mod_lt _ (by decide)
      simp [stepDigit, digitChar_isDigit _ hm, digitChar_toNat _ hm]
      omega

theorem natText_head :
    ∀ fuel n, n < fuel → 0 < n → (natText fuel n).head? ≠ some '0' := by
  intro fuel
  induction fuel with
  | zero => intro n h; omega
  | succ k ih =>
    intro n h hpos
    unfold natText
    split
    · rename_i hlt
      simpa using digitChar_ne_zero n hlt hpos
    · rename_i hge
      have hne := natText_ne_nil k (n / 10) (by omega)
      rw [List.head?_append_of_ne_nil _ hne]
      exact ih (n / 10) (by omega) (by omega)

theorem parseNat_natText (n : Nat) : parseNat (natText (n + 1) n) = some n := by
  simp [parseNat, natText_ne_nil (n + 1) n (by omega), natText_fold (n + 1) n (by omega)]

theorem Itoa_data_nonneg (i : Int) (h : 0 ≤ i) :
    (Itoa i).data = natText (i.natAbs + 1) i.natAbs := by
  simp [Itoa, not_lt.mpr h]

theorem Itoa_data_neg (i : Int) (h : i < 0) :
    (Itoa i).data = '-' :: natText (i.natAbs + 1) i.natAbs := by
  simp [Itoa, h]

/-- Reading the text `Itoa` writes gives the number back, for every integer. -/
theorem parseDecimal_Itoa (i : Int) : parseDecimal (Itoa i) = some i := by
  by_cases h : i < 0
  · simp only [parseDecimal, Itoa_data_neg i h, List.head?_cons, if_true, List.tail_cons,
      parseNat_natText, Option.map_some']
    rw [Int.ofNat_natAbs_of_nonpos (le_of_lt h), neg_neg]
  · have h0 : 0 ≤ i := not_lt.mp h
    have hne := natText_ne_nil (i.natAbs + 1) i.natAbs (by omega)
    have hd := natText_digits (i.natAbs + 1) i.natAbs (by omega)
    have hhead : (natText (i.natAbs + 1) i.natAbs).head? ≠ some '-' := by
      cases hl : natText (i.natAbs + 1) i.natAbs with
      | nil => simp
      | cons c cs =>
        have := isDigit_ne_minus c (hd c (by simp [hl]))
        simpa using this
    simp only [parseDecimal, Itoa_data_nonneg i h0, hhead, if_false, parseNat_natText,
      Option.map_some']
    rw [Int.natAbs_of_nonneg h0]

/-- For a number that is not negative, `Itoa` writes digits only, with no leading zero
and no sign. -/
theorem plainDecimal_Itoa (i : Int) (h : 0 ≤ i) : plainDecimal (Itoa i) = true := by
  have hne := natText_ne_nil (i.natAbs + 1) i.natAbs (by omega)
  have hd := natText_digits (i.natAbs + 1) i.natAbs (by omega)
  have hlead : natText (i.natAbs + 1) i.natAbs = ['0'] ∨
      (natText (i.natAbs + 1) i.natAbs).head? ≠ some '0' := by
    by_cases hz : i.natAbs = 0
    · left; rw [hz]; rfl
    · right; exact natText_head _ _ (by omega) (by omega)
  simp only [plainDecimal, Itoa_data_nonneg i h, Bool.and_eq_true, Bool.not_eq_true',
    Bool.or_eq_true, Bool.or_eq_false_iff, List.all_eq_true, List.isEmpty_eq_false,
    beq_iff_eq, bne_iff_ne, List.contains_eq_any_beq, List.any_eq_false, ne_eq,
    List.isEmpty_iff]
  refine ⟨⟨⟨hne, hd⟩, hlead⟩, ?_, ?_⟩
  · intro c hc hcm
    exact isDigit_ne_minus c (hd c hc) hcm.symm
  · intro c hc hcp
    exact isDigit_ne_plus c (hd c hc) hcp.symm

/-- For a negative number, `Itoa` writes one minus sign and then the text of the absolute
value, which is made of digits only and has no leading zero. -/
theorem Itoa_neg_shape (i : Int) (h : i < 0) :
    (Itoa i).data.head? = some '-'
      ∧ plainDecimal (String.mk (Itoa i).data.tail) = true
      ∧ parseDecimal (String.mk (Itoa i).data.tail) = some (-i) := by
  have htail : String.mk (Itoa i).data.tail = Itoa (-i) := by
    have hneg : ¬ (-i < 0) := by omega
    rw [Itoa_data_neg i h]
    simp [Itoa, hneg, Int.natAbs_neg]
  refine ⟨by simp [Itoa_data_neg i h], ?_, ?_⟩
  · rw [htail]; exact plainDecimal_Itoa (-i) (by omega)
  · rw [htail]; exact parseDecimal_Itoa (-i)

/-! ### The create request of a port forwarding rule -/

theorem pfrRequest_fields (d : PfrData) :
    (pfrRequest d).PublicPortStart = Itoa d.public_port_start
      ∧ (pfrRequest d).PrivatePortStart = Itoa d.private_port_start
      ∧ (pfrRequest d).PublicPortEnd = endText d.public_port_end
      ∧ (pfrRequest d).PrivatePortEnd = endText d.private_port_end := by
  cases hpub : d.public_port_end <;> cases hpriv : d.private_port_end <;>
    simp only [pfrRequest, GetOkInt, GetInt, endText, hpub, hpriv, Option.getD] <;>
    (repeat' split) <;> simp_all

/-- After its scope lookup `readPortForwardingRule` calls nothing but
`PortForwardingRules.Get` on the stored id. -/
theorem readPortForwardingRule_calls {σ : Type} (client : CcaClient σ)
    (d : PfrData) (w : World σ) :
    ∃ rest, (readPortForwardingRule client d w).world.calls
        = w.calls ++ ApiCall.GetResources d.service_code d.environment_name :: rest
      ∧ ∀ c ∈ rest, c = ApiCall.PortForwardingRulesGet d.id := by
  cases hres : (client.GetResources d.service_code d.environment_name w.srv).1.1 with
  | none => exact ⟨[], by simp [readPortForwardingRule, perform, hres], by simp⟩
  | some r =>
    refine ⟨[ApiCall.PortForwardingRulesGet d.id], ?_, by simp⟩
    cases hget : (r.PortForwardingRulesGet d.id
        (client.GetResources d.service_code d.environment_name w.srv).2).1 <;>
      simp [readPortForwardingRule, perform, hres, hget]

/-- With a resources handle and no scope error, `createPortForwardingRule` submits
`pfrRequest d` to `PortForwardingRules.Create`, once. -/
theorem createPortForwardingRule_calls {σ : Type} (client : CcaClient σ)
    (r : Resources σ) (d : PfrData) (w : World σ)
    (hres : (client.GetResources d.service_code d.environment_name w.srv).1 = (some r, none)) :
    ∃ rest, (createPortForwardingRule client d w).world.calls
        = w.calls ++ ApiCall.GetResources d.service_code d.environment_name
            :: ApiCall.PortForwardingRulesCreate (pfrRequest d) :: rest
      ∧ ∀ c ∈ rest, ∀ q, c ≠ ApiCall.PortForwardingRulesCreate q := by
  simp only [createPortForwardingRule, perform, hres]
  cases hc : (r.PortForwardingRulesCreate (pfrRequest d)
      (client.GetResources d.service_code d.environment_name w.srv).2).1 with
  | error err => exact ⟨[], by simp, by simp⟩
  | ok made =>
    obtain ⟨rest, hcalls, hrest⟩ := readPortForwardingRule_calls client
      { d with id := made.Id }
      { srv := (r.PortForwardingRulesCreate (pfrRequest d)
          (client.GetResources d.service_code d.environment_name w.srv).2).2,
        calls := (w.calls ++ [ApiCall.GetResources d.service_code d.environment_name])
          ++ [ApiCall.PortForwardingRulesCreate (pfrRequest d)] }
    refine ⟨ApiCall.GetResources d.service_code d.environment_name :: rest, ?_, ?_⟩
    · simp only [hcalls]; simp
    · intro c hc q
      rcases List.mem_cons.mp hc with heq | hin
      · simp [heq]
      · simp [hrest c hin]

/-- C7, as the code has it: in the request submitted to `PortForwardingRules.Create`,
`PublicPortEnd` is empty when `public_port_end` has no value or the value 0, and is the
decimal text of the value otherwise; `PrivatePortEnd` follows `private_port_end` in the
same way, each of the two depending on its own field only. -/
theorem createPortForwardingRule_port_ends {σ : Type} (client : CcaClient σ)
    (r : Resources σ) (d : PfrData) (w : World σ)
    (hres : (client.GetResources d.service_code d.environment_name w.srv).1 = (some r, none)) :
    ∃ req rest, (createPortForwardingRule client d w).world.calls
        = w.calls ++ ApiCall.GetResources d.service_code d.environment_name
            :: ApiCall.PortForwardingRulesCreate req :: rest
      ∧ (∀ c ∈ rest, ∀ q, c ≠ ApiCall.PortForwardingRulesCreate q)
      ∧ req.PublicPortEnd
          = (match d.public_port_end with
            | none => ""
            | some v => if v = 0 then "" else Itoa v)
      ∧ req.PrivatePortEnd
          = (match d.private_port_end with
            | none => ""
            | some v => if v = 0 then "" else Itoa v) := by
  obtain ⟨rest, hcalls, hrest⟩ := createPortForwardingRule_calls client r d w hres
  exact ⟨pfrRequest d, rest, hcalls, hrest, (pfrRequest_fields d).2.2.1,
    (pfrRequest_fields d).2.2.2⟩

theorem createPortForwardingRule_port_ends_witness :
    ∃ req rest, (createPortForwardingRule (memoryClient sampleOfferings)
          rangeRule (memoryWorld { vpcs := [], rules := [] })).world.calls
        = ApiCall.GetResources "svc1" "dev" :: ApiCall.PortForwardingRulesCreate req :: rest
      ∧ (∀ c ∈ rest, ∀ q, c ≠ ApiCall.PortForwardingRulesCreate q)
      ∧ req.PublicPortEnd = "90"
      ∧ req.PrivatePortEnd = "" :=
  createPortForwardingRule_port_ends (memoryClient sampleOfferings)
    (memoryResources sampleOfferings) rangeRule (memoryWorld { vpcs := [], rules := [] }) rfl

/-- C7 as stated fails: `zeroEndRule` supplies `private_port_end` with the value 0, whose
decimal text is "0", and the request submitted to `PortForwardingRules.Create` has an
empty `PrivatePortEnd`. -/
theorem createPortForwardingRule_drops_zero_end :
    zeroEndRule.private_port_end = some 0 ∧ Itoa 0 = "0"
      ∧ (createPortForwardingRule (memoryClient sampleOfferings) zeroEndRule
          (memoryWorld { vpcs := [], rules := [] })).world.calls
        = [ApiCall.GetResources "svc1" "dev",
           ApiCall.PortForwardingRulesCreate
             { PublicIpId := "ip-1", Protocol := "TCP", PublicPortStart := "80",
               PrivateIpId := "nic-1", PrivatePortStart := "8080", PublicPortEnd := "",
               PrivatePortEnd := "" },
           ApiCall.GetResources "svc1" "dev",
           ApiCall.PortForwardingRulesGet "pfr-0"] :=
  ⟨rfl, rfl, rfl⟩

/-- C8, as the code has it: in the request submitted to `PortForwardingRules.Create`,
each start port text is the decimal representation of the integer of its field, for every
integer: it reads back as that integer; when the integer is not negative it is made of
digits only, without leading zero or sign; when the integer is negative it is one minus
sign followed by the digits of the absolute value, without leading zero. The same holds
for a port-range end that is supplied with a value other than 0. -/
theorem createPortForwardingRule_port_texts {σ : Type} (client : CcaClient σ)
    (r : Resources σ) (d : PfrData) (w : World σ)
    (hres : (client.GetResources d.service_code d.environment_name w.srv).1 = (some r, none)) :
    ∃ req rest, (createPortForwardingRule client d w).world.calls
        = w.calls ++ ApiCall.GetResources d.service_code d.environment_name
            :: ApiCall.PortForwardingRulesCreate req :: rest
      ∧ parseDecimal req.PublicPortStart = some d.public_port_start
      ∧ parseDecimal req.PrivatePortStart = some d.private_port_start
      ∧ (0 ≤ d.public_port_start → plainDecimal req.PublicPortStart = true)
      ∧ (0 ≤ d.private_port_start → plainDecimal req.PrivatePortStart = true)
      ∧ (d.public_port_start < 0 →
          req.PublicPortStart.data.head? = some '-'
            ∧ plainDecimal (String.mk req.PublicPortStart.data.tail) = true
            ∧ parseDecimal (String.mk req.PublicPortStart.data.tail)
                = some (-d.public_port_start))
      ∧ (d.private_port_start < 0 →
          req.PrivatePortStart.data.head? = some '-'
            ∧ plainDecimal (String.mk req.PrivatePortStart.data.tail) = true
            ∧ parseDecimal (String.mk req.PrivatePortStart.data.tail)
                = some (-d.private_port_start))
      ∧ (∀ v, d.public_port_end = some v → v ≠ 0 →
          parseDecimal req.PublicPortEnd = some v
            ∧ (0 < v → plainDecimal req.PublicPortEnd = true)
            ∧ (v < 0 →
              req.PublicPortEnd.data.head? = some '-'
                ∧ plainDecimal (String.mk req.PublicPortEnd.data.tail) = true
                ∧ parseDecimal (String.mk req.PublicPortEnd.data.tail) = some (-v)))
      ∧ (∀ v, d.private_port_end = some v → v ≠ 0 →
          parseDecimal req.PrivatePortEnd = some v
            ∧ (0 < v → plainDecimal req.PrivatePortEnd = true)
            ∧ (v < 0 →
              req.PrivatePortEnd.data.head? = some '-'
                ∧ plainDecimal (String.mk req.PrivatePortEnd.data.tail) = true
                ∧ parseDecimal (String.mk req.PrivatePortEnd.data.tail) = some (-v))) := by
  obtain ⟨rest, hcalls, _⟩ := createPortForwardingRule_calls client r d w hres
  obtain ⟨hps, hvs, hpe, hve⟩ := pfrRequest_fields d
  refine ⟨pfrRequest d, rest, hcalls, ?_, ?_, ?_, ?_, ?_, ?_, ?_, ?_⟩
  · rw [hps]; exact parseDecimal_Itoa _
  · rw [hvs]; exact parseDecimal_Itoa _
  · intro h0; rw [hps]; exact plainDecimal_Itoa _ h0
  · intro h0; rw [hvs]; exact plainDecimal_Itoa _ h0
  · intro h0; rw [hps]; exact Itoa_neg_shape _ h0
  · intro h0; rw [hvs]; exact Itoa_neg_shape _ h0
  · intro v hv hne
    rw [hpe, hv]
    simp only [endText, hne, if_false]
    exact ⟨parseDecimal_Itoa v, fun h0 => plainDecimal_Itoa v (le_of_lt h0),
      fun h0 => Itoa_neg_shape v h0⟩
  · intro v hv hne
    rw [hve, hv]
    simp only [endText, hne, if_false]
    exact ⟨parseDecimal_Itoa v, fun h0 => plainDecimal_Itoa v (le_of_lt h0),
      fun h0 => Itoa_neg_shape v h0⟩

theorem createPortForwardingRule_port_texts_witness :
    (∃ req rest, (createPortForwardingRule (memoryClient sampleOfferings)
          rangeRule (memoryWorld { vpcs := [], rules := [] })).world.calls
        = ApiCall.GetResources "svc1" "dev" :: ApiCall.PortForwardingRulesCreate req :: rest
      ∧ parseDecimal req.PublicPortStart = some 80
      ∧ parseDecimal req.PrivatePortStart = some 8080
      ∧ plainDecimal req.PublicPortStart = true
      ∧ plainDecimal req.PrivatePortStart = true
      ∧ parseDecimal req.PublicPortEnd = some 90
      ∧ plainDecimal req.PublicPortEnd = true)
    ∧ (∃ req rest, (createPortForwardingRule (memoryClient sampleOfferings)
          negativeRule (memoryWorld { vpcs := [], rules := [] })).world.calls
        = ApiCall.GetResources "svc1" "dev" :: ApiCall.PortForwardingRulesCreate req :: rest
      ∧ parseDecimal req.PublicPortStart = some (-1)
      ∧ req.PublicPortStart.data.head? = some '-'
      ∧ plainDecimal (String.mk req.PublicPortStart.data.tail) = true
      ∧ parseDecimal (String.mk req.PublicPortStart.data.tail) = some 1) := by
  constructor
  · obtain ⟨req, rest, hcalls, hp1, hp2, hd1, hd2, _, _, hend, _⟩ :=
      createPortForwardingRule_port_texts (memoryClient sampleOfferings)
        (memoryResources sampleOfferings) rangeRule (memoryWorld { vpcs := [], rules := [] })
        rfl
    exact ⟨req, rest, hcalls, hp1, hp2, hd1 (by decide), hd2 (by decide),
      (hend 90 rfl (by decide)).1, (hend 90 rfl (by decide)).2.1 (by decide)⟩
  · obtain ⟨req, rest, hcalls, hp1, _, _, _, hneg, _, _, _⟩ :=
      createPortForwardingRule_port_texts (memoryClient sampleOfferings)
        (memoryResources sampleOfferings) negativeRule
        (memoryWorld { vpcs := [], rules := [] }) rfl
    exact ⟨req, rest, hcalls, hp1, (hneg (by decide)).1, (hneg (by decide)).2.1,
      (hneg (by decide)).2.2⟩

/-- C8 as stated fails in two ways. `negativeRule` has the public start port -1, and the
text submitted for it is "-1", which carries a sign and so is not made of digits only.
`zeroPublicEndRule` supplies `public_port_end` with the value 0, and the text submitted
for it is empty: it has no digit and does not read back as 0. -/
theorem createPortForwardingRule_negative_port :
    (negativeRule.public_port_start = -1
      ∧ (createPortForwardingRule (memoryClient sampleOfferings) negativeRule
          (memoryWorld { vpcs := [], rules := [] })).world.calls
        = [ApiCall.GetResources "svc1" "dev",
           ApiCall.PortForwardingRulesCreate
             { PublicIpId := "ip-1", Protocol := "TCP", PublicPortStart := "-1",
               PrivateIpId := "nic-1", PrivatePortStart := "8080" },
           ApiCall.GetResources "svc1" "dev",
           ApiCall.PortForwardingRulesGet "pfr-0"]
      ∧ plainDecimal "-1" = false
      ∧ ("-1" : String).data.contains '-' = true)
    ∧ (zeroPublicEndRule.public_port_end = some 0
      ∧ (createPortForwardingRule (memoryClient sampleOfferings) zeroPublicEndRule
          (memoryWorld { vpcs := [], rules := [] })).world.calls
        = [ApiCall.GetResources "svc1" "dev",
           ApiCall.PortForwardingRulesCreate
             { PublicIpId := "ip-1", Protocol := "TCP", PublicPortStart := "80",
               PrivateIpId := "nic-1", PrivatePortStart := "8080", PublicPortEnd := "" },
           ApiCall.GetResources "svc1" "dev",
           ApiCall.PortForwardingRulesGet "pfr-0"]
      ∧ plainDecimal "" = false
      ∧ parseDecimal "" = none) :=
  ⟨⟨rfl, rfl, by decide, by decide⟩, ⟨rfl, rfl, by decide, by decide⟩⟩

/-! ### Computed fields after read and create -/

/-- When `PortForwardingRules.Get` answers with a record, `readPortForwardingRule`
returns nil and writes the text fields of the record into the resource data. The four
port fields are not written: `d.Set` is handed a Go string for each of them, and they are
`TypeInt` fields. -/
theorem readPortForwardingRule_found {σ : Type} (client : CcaClient σ)
    (r : Resources σ) (d : PfrData) (w : World σ) (pfr : PortForwardingRule)
    (hres : (client.GetResources d.service_code d.environment_name w.srv).1.1 = some r)
    (hget : (r.PortForwardingRulesGet d.id
        (client.GetResources d.service_code d.environment_name w.srv).2).1 = .ok pfr) :
    (readPortForwardingRule client d w).outcome = Outcome.returned none
      ∧ (readPortForwardingRule client d w).d
        = { d with
            public_ip_id := pfr.PublicIpId
            private_ip_id := pfr.PrivateIpId
            instance_id := pfr.InstanceId
            protocol := pfr.Protocol
            private_ip := pfr.PrivateIp
            public_ip := pfr.PublicIp } := by
  simp [readPortForwardingRule, perform, hres, hget, SetInt, SetOptInt]

/-- When `PortForwardingRules.Create` answers with a record, `createPortForwardingRule`
stores the new id and continues as `readPortForwardingRule`. -/
theorem createPortForwardingRule_created {σ : Type} (client : CcaClient σ)
    (r : Resources σ) (d : PfrData) (w : World σ) (made : PortForwardingRule)
    (hres : (client.GetResources d.service_code d.environment_name w.srv).1 = (some r, none))
    (hcreate : (r.PortForwardingRulesCreate (pfrRequest d)
        (client.GetResources d.service_code d.environment_name w.srv).2).1 = .ok made) :
    createPortForwardingRule client d w
      = readPortForwardingRule client { d with id := made.Id }
          { srv := (r.PortForwardingRulesCreate (pfrRequest d)
              (client.GetResources d.service_code d.environment_name w.srv).2).2
            calls := w.calls ++ [ApiCall.GetResources d.service_code d.environment_name]
              ++ [ApiCall.PortForwardingRulesCreate (pfrRequest d)] } := by
  simp [createPortForwardingRule, perform, hres, hcreate]

/-- C9: a read and a create that return no error and leave the port-range ends unwritten.
The server holds the rule "pfr-0" with `PublicPortEnd` "80" and `PrivatePortEnd` "8080".
`readPortForwardingRule` on the stored id "pfr-0" returns nil and sets `public_ip`,
`private_ip` and `instance_id` from the record, but `public_port_end` and
`private_port_end` are still without a value. `createPortForwardingRule` on a new rule
that supplies no end creates "pfr-0", returns nil, and leaves the two ends without a
value as well. -/
theorem readPortForwardingRule_port_ends_unwritten :
    ((readPortForwardingRule (memoryClient sampleOfferings) knownRule
          (memoryWorld { vpcs := [], rules := [storedRule] })).outcome = Outcome.returned none
      ∧ ((memoryResources sampleOfferings).PortForwardingRulesGet knownRule.id
          { vpcs := [], rules := [storedRule] }).1 = .ok storedRule
      ∧ storedRule.PublicPortEnd = "80" ∧ storedRule.PrivatePortEnd = "8080"
      ∧ (readPortForwardingRule (memoryClient sampleOfferings) knownRule
          (memoryWorld { vpcs := [], rules := [storedRule] })).d
        = { knownRule with
            public_ip := "203.0.113.7", private_ip := "10.0.0.5", instance_id := "i-1" }
      ∧ (readPortForwardingRule (memoryClient sampleOfferings) knownRule
          (memoryWorld { vpcs := [], rules := [storedRule] })).d.public_port_end = none
      ∧ (readPortForwardingRule (memoryClient sampleOfferings) knownRule
          (memoryWorld { vpcs := [], rules := [storedRule] })).d.private_port_end = none)
    ∧ ((createPortForwardingRule (memoryClient sampleOfferings) newRule
          (memoryWorld { vpcs := [], rules := [] })).outcome = Outcome.returned none
      ∧ (createPortForwardingRule (memoryClient sampleOfferings) newRule
          (memoryWorld { vpcs := [], rules := [] })).world.srv
        = { vpcs := [], rules := [storedRule] }
      ∧ (createPortForwardingRule (memoryClient sampleOfferings) newRule
          (memoryWorld { vpcs := [], rules := [] })).d
        = { newRule with
            id := "pfr-0", public_ip := "203.0.113.7", private_ip := "10.0.0.5",
            instance_id := "i-1" }
      ∧ (createPortForwardingRule (memoryClient sampleOfferings) newRule
          (memoryWorld { vpcs := [], rules := [] })).d.public_port_end = none
      ∧ (createPortForwardingRule (memoryClient sampleOfferings) newRule
          (memoryWorld { vpcs := [], rules := [] })).d.private_port_end = none) :=
  ⟨⟨rfl, rfl, rfl, rfl, rfl, rfl, rfl⟩, ⟨rfl, rfl, rfl, rfl, rfl⟩⟩

/-! ### Failure of create -/

/-- A failed `retrieveVpcOfferingID` has called the listing, once, and nothing else. -/
theorem retrieveVpcOfferingID_failed_calls {σ : Type} (h : Helpers) (ccaRes : Resources σ)
    (name : String) (w : World σ) (cerr : GoError)
    (hfail : (retrieveVpcOfferingID h ccaRes name w).1.2 = some cerr) :
    (retrieveVpcOfferingID h ccaRes name w).2.calls = w.calls ++ [ApiCall.VpcOfferingsList] := by
  by_cases hid : h.isID name = true
  · simp [retrieveVpcOfferingID, hid] at hfail
  · have hnot : h.isID name = false := by simpa using hid
    rw [retrieveVpcOfferingID_world h ccaRes name w hnot]

/-- The calls of a `retrieveVpcOfferingID`: none for an id, the listing otherwise. -/
theorem retrieveVpcOfferingID_calls {σ : Type} (h : Helpers) (ccaRes : Resources σ)
    (name : String) (w : World σ) :
    (retrieveVpcOfferingID h ccaRes name w).2.calls
      = w.calls ++ (if h.isID name then [] else [ApiCall.VpcOfferingsList]) := by
  by_cases hid : h.isID name = true
  · simp [retrieveVpcOfferingID, hid]
  · have hnot : h.isID name = false := by simpa using hid
    rw [retrieveVpcOfferingID_world h ccaRes name w hnot]
    simp [hnot]

/-- C10: when `PortForwardingRules.Create` fails, `createPortForwardingRule` returns that
error, leaves the resource data (the stored id included) as it was, and has called the
scope lookup and `Create` only, so read is not invoked. When `Vpcs.Create` fails,
`resourceCloudcaVpcCreate` returns an error built from it, leaves the resource data as it
was, and the call log ends with `Vpcs.Create`, so read is not invoked. When resolving
`vpc_offering` fails, `resourceCloudcaVpcCreate` returns that error, leaves the resource
data as it was, and has called the scope lookup and the offering listing only: neither
`Vpcs.Create` nor read is invoked. -/
theorem create_failure_sets_no_id {σ : Type} (h : Helpers) (client : CcaClient σ)
    (w : World σ) :
    (∀ (d : PfrData) (r : Resources σ) (err : GoError),
        (client.GetResources d.service_code d.environment_name w.srv).1 = (some r, none) →
        (r.PortForwardingRulesCreate (pfrRequest d)
          (client.GetResources d.service_code d.environment_name w.srv).2).1 = .error err →
        (createPortForwardingRule client d w).outcome = Outcome.returned (some err)
          ∧ (createPortForwardingRule client d w).d = d
          ∧ (createPortForwardingRule client d w).world.calls
            = w.calls ++ [ApiCall.GetResources d.service_code d.environment_name,
                ApiCall.PortForwardingRulesCreate (pfrRequest d)])
      ∧ (∀ (d : VpcData) (r : Resources σ) (id : String) (err : GoError),
        (client.GetResources d.service_code d.environment_name w.srv).1.1 = some r →
        (retrieveVpcOfferingID h r d.vpc_offering
          { srv := (client.GetResources d.service_code d.environment_name w.srv).2
            calls := w.calls ++ [ApiCall.GetResources d.service_code d.environment_name] }).1
          = (id, none) →
        (r.VpcsCreate (vpcToCreate d id)
          (retrieveVpcOfferingID h r d.vpc_offering
            { srv := (client.GetResources d.service_code d.environment_name w.srv).2
              calls := w.calls ++ [ApiCall.GetResources d.service_code d.environment_name]
            }).2.srv).1 = .error err →
        (resourceCloudcaVpcCreate h client d w).outcome
            = Outcome.returned (some (GoError.errorfCreateVpc d.name err))
          ∧ (resourceCloudcaVpcCreate h client d w).d = d
          ∧ (resourceCloudcaVpcCreate h client d w).world.calls
            = w.calls ++ [ApiCall.GetResources d.service_code d.environment_name]
                ++ (if h.isID d.vpc_offering then [] else [ApiCall.VpcOfferingsList])
                ++ [ApiCall.VpcsCreate (vpcToCreate d id)])
      ∧ (∀ (d : VpcData) (r : Resources σ) (cerr : GoError),
        (client.GetResources d.service_code d.environment_name w.srv).1.1 = some r →
        (retrieveVpcOfferingID h r d.vpc_offering
          { srv := (client.GetResources d.service_code d.environment_name w.srv).2
            calls := w.calls ++ [ApiCall.GetResources d.service_code d.environment_name] }).1.2
          = some cerr →
        (resourceCloudcaVpcCreate h client d w).outcome = Outcome.returned (some cerr)
          ∧ (resourceCloudcaVpcCreate h client d w).d = d
          ∧ (resourceCloudcaVpcCreate h client d w).world.calls
            = w.calls ++ [ApiCall.GetResources d.service_code d.environment_name,
                ApiCall.VpcOfferingsList]) := by
  refine ⟨?_, ?_, ?_⟩
  · intro d r err hres hcreate
    simp [createPortForwardingRule, perform, hres, hcreate]
  · intro d r id err hres hoff hcreate
    have hname : (vpcToCreate d id).Name = d.name := by
      unfold vpcToCreate; split <;> rfl
    have hcalls := retrieveVpcOfferingID_calls h r d.vpc_offering
      { srv := (client.GetResources d.service_code d.environment_name w.srv).2
        calls := w.calls ++ [ApiCall.GetResources d.service_code d.environment_name] }
    simp only [resourceCloudcaVpcCreate, perform, hres, hoff, hcreate, hname, hcalls]
    simp
  · intro d r cerr hres hoff
    have hcalls := retrieveVpcOfferingID_failed_calls h r d.vpc_offering
      { srv := (client.GetResources d.service_code d.environment_name w.srv).2
        calls := w.calls ++ [ApiCall.GetResources d.service_code d.environment_name] } cerr hoff
    simp only [resourceCloudcaVpcCreate, perform, hres, hoff, hcalls]
    simp

theorem create_failure_sets_no_id_witness :
    ((createPortForwardingRule (failingClient 500 sampleOfferings) newRule
          emptyWorld).outcome
        = Outcome.returned (some (GoError.ccaErrorResponse 500 "pfr"))
      ∧ (createPortForwardingRule (failingClient 500 sampleOfferings) newRule
          emptyWorld).d = newRule
      ∧ (createPortForwardingRule (failingClient 500 sampleOfferings) newRule
          emptyWorld).world.calls
        = [ApiCall.GetResources "svc1" "dev",
            ApiCall.PortForwardingRulesCreate
              { PublicIpId := "ip-1", Protocol := "TCP", PublicPortStart := "80",
                PrivateIpId := "nic-1", PrivatePortStart := "8080" }])
      ∧ ((resourceCloudcaVpcCreate sampleHelpers (failingClient 500 sampleOfferings) newVpc
          emptyWorld).outcome
        = Outcome.returned (some (GoError.errorfCreateVpc "vpc1"
            (GoError.ccaErrorResponse 500 "vpc")))
      ∧ (resourceCloudcaVpcCreate sampleHelpers (failingClient 500 sampleOfferings) newVpc
          emptyWorld).d = newVpc
      ∧ (resourceCloudcaVpcCreate sampleHelpers (failingClient 500 sampleOfferings) newVpc
          emptyWorld).world.calls
        = [ApiCall.GetResources "svc1" "dev", ApiCall.VpcOfferingsList,
            ApiCall.VpcsCreate { Name := "vpc1", Description := "d", VpcOfferingId := "off-1" }])
      ∧ ((resourceCloudcaVpcCreate sampleHelpers (failingClient 500 sampleOfferings)
          unknownOfferingVpc emptyWorld).outcome
        = Outcome.returned (some (GoError.errorfOfferingNotFound "gold"))
      ∧ (resourceCloudcaVpcCreate sampleHelpers (failingClient 500 sampleOfferings)
          unknownOfferingVpc emptyWorld).d = unknownOfferingVpc
      ∧ (resourceCloudcaVpcCreate sampleHelpers (failingClient 500 sampleOfferings)
          unknownOfferingVpc emptyWorld).world.calls
        = [ApiCall.GetResources "svc1" "dev", ApiCall.VpcOfferingsList]) :=
  ⟨(create_failure_sets_no_id sampleHelpers (failingClient 500 sampleOfferings) emptyWorld).1
      newRule (failingResources 500 sampleOfferings) (GoError.ccaErrorResponse 500 "pfr")
      rfl rfl,
   (create_failure_sets_no_id sampleHelpers (failingClient 500 sampleOfferings) emptyWorld).2.1
      newVpc (failingResources 500 sampleOfferings) "off-1" (GoError.ccaErrorResponse 500 "vpc")
      rfl rfl rfl,
   (create_failure_sets_no_id sampleHelpers (failingClient 500 sampleOfferings) emptyWorld).2.2
      unknownOfferingVpc (failingResources 500 sampleOfferings)
      (GoError.errorfOfferingNotFound "gold") rfl rfl⟩

end Cloudca
